import Mathlib

/-!
Shallow embedding of the CPU delta/rendering core of
`elastic-agent-system-metrics` (file `metric/cpu/cpu.go`).

Modelling conventions:
* Go `uint64` values are `Nat` reduced modulo `2 ^ 64` wherever the Go code
  performs 64-bit arithmetic (`U64`, `u64sub`, `toInt64`).
* `opt.Uint` (from elastic-agent-libs) is `Option Nat`; `ValueOr(0)` is
  `Option.getD 0` and `IsZero` (meaning: value absent) is `Option.isNone`.
* Go `float64` arithmetic is modelled over `ℚ` (exact real arithmetic);
  the claims under study are about which formula is computed and where
  rounding is applied, not about IEEE-754 artifacts.
* The nested `mapstr.M` output is modelled as an association list from
  full key paths (`List String`, the dot-split key) to primitive values;
  `mapstr.Put "total.pct" v` becomes an entry at path `["total", "pct"]`.
* The external collector call `Get(m)` is an explicit input:
  `Except String CPUMetrics` (collector result or error).
* A Go runtime panic (index out of range in `FetchCores`) is modelled by
  the `GoResult.panicked` outcome.
-/

namespace Cpu

/-- Modulus of Go `uint64` arithmetic. -/
def U64 : ℕ := 2 ^ 64

/-- Go `uint64` subtraction `a - b` (wraparound modulo `2 ^ 64`). -/
def u64sub (a b : ℕ) : ℕ := (a % U64 + (U64 - b % U64)) % U64

/-- Reinterpret a `uint64` bit pattern as Go `int64` (two's complement),
as in the cast `int64(current.ValueOr(0) - prev.ValueOr(0))`. -/
def toInt64 (n : ℕ) : ℤ :=
  if n % U64 < 2 ^ 63 then (n % U64 : ℤ) else (n % U64 : ℤ) - (U64 : ℤ)

/-- Modelled from the spec: the helper `metric.Round` (package `metric`,
not under `src/`) rounds a float to two-decimal output precision
("Rounding is applied once, at the point of emission, to two-decimal
precision"). -/
def Round (x : ℚ) : ℚ := ((round (x * 100) : ℤ) : ℚ) / 100

/-- `CPU` struct: the eight optional tick counters scraped from /proc/stat. -/
structure CPU where
  User : Option ℕ := none
  Sys : Option ℕ := none
  Idle : Option ℕ := none
  Nice : Option ℕ := none
  Irq : Option ℕ := none
  Wait : Option ℕ := none
  SoftIrq : Option ℕ := none
  Stolen : Option ℕ := none
deriving DecidableEq, Repr

/-- `MetricOpts`: the three output switches. -/
structure MetricOpts where
  Ticks : Bool
  Percentages : Bool
  NormalizedPercentages : Bool
deriving DecidableEq, Repr

/-- `CPUInfo` struct from /proc/cpuinfo; Go zero values as defaults. -/
structure CPUInfo where
  ModelName : String := ""
  ModelNumber : String := ""
  Mhz : ℚ := 0
  PhysicalID : ℤ := 0
  CoreID : ℤ := 0
deriving DecidableEq, Repr

/-- `CPUMetrics`: one collected snapshot (totals, per-core list, info list). -/
structure CPUMetrics where
  totals : CPU := {}
  list : List CPU := []
  CPUInfo : List CPUInfo := []
deriving DecidableEq, Repr

/-- `CPU.Total`: `opt.SumOptUint` over the eight counters, `uint64` wraparound
sum of the `ValueOr(0)` values, in the order of the Go call. -/
def CPU.Total (cpu : CPU) : ℕ :=
  (cpu.User.getD 0 % U64 + cpu.Nice.getD 0 % U64 + cpu.Sys.getD 0 % U64 +
   cpu.Idle.getD 0 % U64 + cpu.Wait.getD 0 % U64 + cpu.Irq.getD 0 % U64 +
   cpu.SoftIrq.getD 0 % U64 + cpu.Stolen.getD 0 % U64) % U64

/-- `Metrics`: previous/current sample pair plus context. -/
structure Metrics where
  previousSample : CPU := {}
  currentSample : CPU := {}
  count : ℕ := 0
  cpuInfo : CPUInfo := {}
  isTotals : Bool := false
deriving DecidableEq, Repr

/-- `Monitor` state: the stored last snapshot. -/
structure Monitor where
  lastSample : CPUMetrics := {}
deriving DecidableEq, Repr

/-- Outcome of a Go call that can return a value, return an error, or panic. -/
inductive GoResult (α : Type) where
  | ok : α → GoResult α
  | err : String → GoResult α
  | panicked : GoResult α
deriving DecidableEq, Repr

/-- Primitive values appearing in the output map. -/
inductive Prim where
  | num : ℚ → Prim
  | uint : ℕ → Prim
  | int : ℤ → Prim
  | str : String → Prim
deriving DecidableEq, Repr

/-- The output map: full key path (dot-split) to primitive value. -/
abbrev Out := List (List String × Prim)

/-- Lookup of a key path in an output map (first match). -/
def mget (k : List String) : Out → Option Prim
  | [] => none
  | (k0, v) :: rest => if k0 = k then some v else mget k rest

/-- `cpuMetricTimeDelta`: rounded ratio of the wrapped counter delta over the
window delta, scaled by `numCPU`. -/
def cpuMetricTimeDelta (prev current : Option ℕ) (timeDelta : ℕ) (numCPU : ℕ) : ℚ :=
  let cpuDelta : ℤ := toInt64 (u64sub (current.getD 0) (prev.getD 0))
  let pct : ℚ := (cpuDelta : ℚ) / (timeDelta : ℚ)
  Round (pct * (numCPU : ℚ))

/-- `createTotal`: busy percentage, idle plus (present) iowait subtracted. -/
def createTotal (prev cur : CPU) (timeDelta : ℕ) (numCPU : ℕ) : ℚ :=
  let idleTime := cpuMetricTimeDelta prev.Idle cur.Idle timeDelta numCPU
  let idleTime :=
    if cur.Wait.isSome then
      idleTime + cpuMetricTimeDelta prev.Wait cur.Wait timeDelta numCPU
    else idleTime
  Round ((numCPU : ℚ) - idleTime)

/-- `fillMetric`: the per-category sub-map, here emitted at full key paths
under the category name. -/
def fillMetric (opts : MetricOpts) (name : String) (cur prev : Option ℕ)
    (timeDelta : ℕ) (numCPU : ℕ) : Out :=
  (if opts.Ticks then [([name, "ticks"], Prim.uint (cur.getD 0))] else []) ++
  (if opts.Percentages then
    [([name, "pct"], Prim.num (cpuMetricTimeDelta prev cur timeDelta numCPU))]
   else []) ++
  (if opts.NormalizedPercentages then
    [([name, "norm", "pct"], Prim.num (cpuMetricTimeDelta prev cur timeDelta 1))]
   else [])

/-- `reportOptMetric` closure in `Format`: emit the category only when the
current counter is present (`!current.IsZero()`). -/
def reportOpt (opts : MetricOpts) (name : String) (current prev : Option ℕ)
    (timeDelta : ℕ) (norm : ℕ) : Out :=
  if current.isSome then fillMetric opts name current prev timeDelta norm else []

/-- Body of `Format` after the stale-sample guard has passed. -/
def formatBody (metric : Metrics) (opts : MetricOpts) (timeDelta : ℕ) : Out :=
  let normCPU := if metric.isTotals then metric.count else 1
  ((if opts.Percentages then
      [(["total", "pct"],
        Prim.num (createTotal metric.previousSample metric.currentSample timeDelta normCPU))]
    else []) ++
   (if opts.NormalizedPercentages then
      [(["total", "norm", "pct"],
        Prim.num (createTotal metric.previousSample metric.currentSample timeDelta 1))]
    else [])) ++
  (reportOpt opts "user" metric.currentSample.User metric.previousSample.User timeDelta normCPU ++
   reportOpt opts "system" metric.currentSample.Sys metric.previousSample.Sys timeDelta normCPU ++
   reportOpt opts "idle" metric.currentSample.Idle metric.previousSample.Idle timeDelta normCPU ++
   reportOpt opts "nice" metric.currentSample.Nice metric.previousSample.Nice timeDelta normCPU ++
   reportOpt opts "irq" metric.currentSample.Irq metric.previousSample.Irq timeDelta normCPU ++
   reportOpt opts "iowait" metric.currentSample.Wait metric.previousSample.Wait timeDelta normCPU ++
   reportOpt opts "softirq" metric.currentSample.SoftIrq metric.previousSample.SoftIrq timeDelta normCPU ++
   reportOpt opts "steal" metric.currentSample.Stolen metric.previousSample.Stolen timeDelta normCPU) ++
  (if metric.isTotals then []
   else if metric.cpuInfo = ({} : CPUInfo) then []
   else
     [(["model_number"], Prim.str metric.cpuInfo.ModelNumber),
      (["model_name"], Prim.str metric.cpuInfo.ModelName),
      (["mhz"], Prim.num metric.cpuInfo.Mhz),
      (["core_id"], Prim.int metric.cpuInfo.CoreID),
      (["physical_id"], Prim.int metric.cpuInfo.PhysicalID)])

/-- `Metrics.Format`: window delta guard (`uint64` subtraction, `<= 0` test),
then the rendered map. `none` models the Go error return. -/
def Metrics.Format (metric : Metrics) (opts : MetricOpts) : Option Out :=
  let timeDelta := u64sub metric.currentSample.Total metric.previousSample.Total
  if timeDelta ≤ 0 then none
  else some (formatBody metric opts timeDelta)

/-- `Monitor.Fetch`: collect, store the new snapshot, return the totals diff.
The returned `Monitor` is the post-call state of the receiver. -/
def Monitor.Fetch (m : Monitor) (collected : Except String CPUMetrics) :
    Monitor × GoResult Metrics :=
  match collected with
  | .error e => (m, .err ("error fetching CPU metrics: " ++ e))
  | .ok metric =>
    ({ lastSample := metric },
     .ok { previousSample := m.lastSample.totals, currentSample := metric.totals,
           count := metric.list.length, isTotals := true })

/-- One iteration of the `FetchCores` loop: build the `Metrics` for core `i`.
`none` models the Go index-out-of-range panic on `metric.CPUInfo[i]`. -/
def coreAt (last metric : CPUMetrics) (i : ℕ) : Option Metrics :=
  match metric.list[i]? with
  | none => none
  | some cur =>
    let lastMetric : CPU := if last.list.length > i then last.list.getD i {} else {}
    let base : Metrics :=
      { currentSample := cur, previousSample := lastMetric, isTotals := false }
    if metric.CPUInfo.length = 0 then some base
    else
      match metric.CPUInfo[i]? with
      | some ci => some { base with cpuInfo := ci }
      | none => none

/-- `Monitor.FetchCores`: collect, build one diff per core of the new
snapshot, store the new snapshot. The returned `Monitor` is the post-call
state (unchanged when the collector fails or the loop panics before the
final assignment). -/
def Monitor.FetchCores (m : Monitor) (collected : Except String CPUMetrics) :
    Monitor × GoResult (List Metrics) :=
  match collected with
  | .error e => (m, .err ("error fetching CPU metrics: " ++ e))
  | .ok metric =>
    match (List.range metric.list.length).mapM (coreAt m.lastSample metric) with
    | some l => ({ lastSample := metric }, .ok l)
    | none => (m, .panicked)

/-! ### Category enumeration (the eight /proc/stat counters) -/

/-- The eight recognized counter categories, with their output key names
and the `CPU` field each is read from in `Format`. -/
inductive Category where
  | user
  | system
  | idle
  | nice
  | irq
  | iowait
  | softirq
  | steal
deriving DecidableEq, Repr

/-- Output key name of a category (as in the `reportOptMetric` calls). -/
def Category.goName : Category → String
  | .user => "user"
  | .system => "system"
  | .idle => "idle"
  | .nice => "nice"
  | .irq => "irq"
  | .iowait => "iowait"
  | .softirq => "softirq"
  | .steal => "steal"

/-- The `CPU` field a category is read from (as in the `reportOptMetric`
calls: `iowait` reads `Wait`, `steal` reads `Stolen`). -/
def Category.get : Category → CPU → Option ℕ
  | .user, c => c.User
  | .system, c => c.Sys
  | .idle, c => c.Idle
  | .nice, c => c.Nice
  | .irq, c => c.Irq
  | .iowait, c => c.Wait
  | .softirq, c => c.SoftIrq
  | .steal, c => c.Stolen

/-! ### Spec-side definitions (for refinement statements)

These two follow the spec's words, to be compared with the code-derived
`cpuMetricTimeDelta` and `createTotal`. -/

/-- Spec formula for a per-category percentage:
`pct_c = round(delta_c / timeDelta * n)` with
`delta_c = current[c] - previous[c]` in signed arithmetic and
`previous[c] = 0` when absent. -/
def pctSpec (prev cur : Option ℕ) (timeDelta : ℕ) (n : ℕ) : ℚ :=
  Round ((((cur.getD 0 : ℤ) - (prev.getD 0 : ℤ) : ℤ) : ℚ) / (timeDelta : ℚ) * (n : ℚ))

/-- Spec formula for the aggregate total percentage:
`round(n - idlePortion)` with `idlePortion = pct(idle) + pct(iowait)`,
iowait contributing zero when absent from the current sample. -/
def totalPctSpec (prev cur : CPU) (timeDelta : ℕ) (n : ℕ) : ℚ :=
  Round ((n : ℚ) -
    (pctSpec prev.Idle cur.Idle timeDelta n +
     (if cur.Wait.isSome then pctSpec prev.Wait cur.Wait timeDelta n else 0)))

/-- The claim C7 reading of the total formula: single rounding, computed
from the unrounded per-category ratios. -/
def totalPctSingleRound (prev cur : CPU) (timeDelta : ℕ) (n : ℕ) : ℚ :=
  Round ((n : ℚ) -
    ((((cur.Idle.getD 0 : ℤ) - (prev.Idle.getD 0 : ℤ) : ℤ) : ℚ) / (timeDelta : ℚ) * (n : ℚ) +
     (if cur.Wait.isSome then
        (((cur.Wait.getD 0 : ℤ) - (prev.Wait.getD 0 : ℤ) : ℤ) : ℚ) / (timeDelta : ℚ) * (n : ℚ)
      else 0)))

/-- A sample whose counters are all below `2 ^ 59` ticks (about 18 million
years of CPU time at 1000 ticks per second): the regime in which the Go
`uint64`/`int64` arithmetic coincides with exact integer arithmetic. -/
def CPU.Small (c : CPU) : Prop :=
  c.User.getD 0 < 2 ^ 59 ∧ c.Sys.getD 0 < 2 ^ 59 ∧ c.Idle.getD 0 < 2 ^ 59 ∧
  c.Nice.getD 0 < 2 ^ 59 ∧ c.Irq.getD 0 < 2 ^ 59 ∧ c.Wait.getD 0 < 2 ^ 59 ∧
  c.SoftIrq.getD 0 < 2 ^ 59 ∧ c.Stolen.getD 0 < 2 ^ 59

instance (c : CPU) : Decidable c.Small := by
  unfold CPU.Small
  infer_instance

/-! ### Helper lemmas -/

theorem mget_nil (k : List String) : mget k [] = none := rfl

theorem mget_cons (k k0 : List String) (v : Prim) (rest : Out) :
    mget k ((k0, v) :: rest) = if k0 = k then some v else mget k rest := rfl

theorem mget_append (k : List String) (xs ys : Out) :
    mget k (xs ++ ys) = (mget k xs).or (mget k ys) := by
  induction xs with
  | nil => simp [mget]
  | cons p rest ih =>
    obtain ⟨k0, v⟩ := p
    by_cases h : k0 = k <;> simp [mget, h, ih]

theorem mget_ite (k : List String) (c : Prop) [Decidable c] (xs ys : Out) :
    mget k (if c then xs else ys) = if c then mget k xs else mget k ys :=
  apply_ite (mget k) c xs ys

theorem u64sub_of_lt {a b : ℕ} (hb : b < a) (ha : a < U64) : u64sub a b = a - b := by
  unfold u64sub U64 at *
  omega

theorem toInt64_u64sub (a b : ℕ) (ha : a < 2 ^ 63) (hb : b < 2 ^ 63) :
    toInt64 (u64sub a b) = (a : ℤ) - (b : ℤ) := by
  unfold toInt64 u64sub U64
  split <;> omega

theorem Total_lt_u64 (c : CPU) : c.Total < U64 := by
  unfold CPU.Total U64
  omega

theorem Total_lt_of_small {c : CPU} (h : c.Small) : c.Total < 2 ^ 63 := by
  obtain ⟨h1, h2, h3, h4, h5, h6, h7, h8⟩ := h
  unfold CPU.Total U64
  omega

theorem small_field {c : CPU} (h : c.Small) (cat : Category) :
    (cat.get c).getD 0 < 2 ^ 63 := by
  obtain ⟨h1, h2, h3, h4, h5, h6, h7, h8⟩ := h
  cases cat <;> simp [Category.get] <;> omega

/-- Under a positive true window delta, `Format` takes the success branch
with `timeDelta` the exact difference of the totals. -/
theorem format_eq_body {metric : Metrics} (opts : MetricOpts)
    (hd : metric.previousSample.Total < metric.currentSample.Total) :
    metric.Format opts =
      some (formatBody metric opts
        (metric.currentSample.Total - metric.previousSample.Total)) := by
  unfold Metrics.Format
  rw [u64sub_of_lt hd (Total_lt_u64 _)]
  rw [if_neg (by omega)]

/-- The code helper `cpuMetricTimeDelta` computes the spec's signed-delta
percentage whenever both counters are below `2 ^ 63`. -/
theorem cpuMetricTimeDelta_eq_pctSpec (prev cur : Option ℕ) (td n : ℕ)
    (hp : prev.getD 0 < 2 ^ 63) (hc : cur.getD 0 < 2 ^ 63) :
    cpuMetricTimeDelta prev cur td n = pctSpec prev cur td n := by
  unfold cpuMetricTimeDelta pctSpec
  rw [toInt64_u64sub _ _ hc hp]

/-- The code helper `createTotal` computes the spec's total formula
(from the already-rounded idle and iowait percentages). -/
theorem createTotal_eq_totalPctSpec (prev cur : CPU) (td n : ℕ)
    (hpi : prev.Idle.getD 0 < 2 ^ 63) (hci : cur.Idle.getD 0 < 2 ^ 63)
    (hpw : prev.Wait.getD 0 < 2 ^ 63) (hcw : cur.Wait.getD 0 < 2 ^ 63) :
    createTotal prev cur td n = totalPctSpec prev cur td n := by
  unfold createTotal totalPctSpec
  rw [cpuMetricTimeDelta_eq_pctSpec _ _ _ _ hpi hci]
  by_cases hw : cur.Wait.isSome
  · simp only [hw, if_true, cpuMetricTimeDelta_eq_pctSpec _ _ _ _ hpw hcw]
  · simp only [hw, if_false, Bool.false_eq_true, add_zero]

/-! ### FetchCores machinery -/

/-- `mapM` over `Option` succeeds pointwise. -/
theorem mapM_option_eq_some {α β : Type} (f : α → Option β) (g : α → β) :
    ∀ l : List α, (∀ a ∈ l, f a = some (g a)) → l.mapM f = some (l.map g) := by
  intro l
  induction l with
  | nil => intro _; rfl
  | cons a t ih =>
    intro h
    rw [List.map_cons, List.mapM_cons, h a (by simp),
      ih (fun b hb => h b (by simp [hb]))]
    rfl

/-- The `Metrics` value the `FetchCores` loop builds for core `i` when no
index fault occurs. -/
def coreOk (last metric : CPUMetrics) (i : ℕ) : Metrics :=
  { currentSample := metric.list.getD i {},
    previousSample := if last.list.length > i then last.list.getD i {} else {},
    cpuInfo := if metric.CPUInfo.length = 0 then {} else metric.CPUInfo.getD i {},
    isTotals := false }

theorem coreAt_eq_some (last metric : CPUMetrics) (i : ℕ)
    (hi : i < metric.list.length)
    (hinv : metric.CPUInfo = [] ∨ metric.list.length ≤ metric.CPUInfo.length) :
    coreAt last metric i = some (coreOk last metric i) := by
  unfold coreAt coreOk
  rw [List.getElem?_eq_getElem hi]
  by_cases hz : metric.CPUInfo.length = 0
  · simp [hz, List.getD_eq_getElem?_getD, List.getElem?_eq_getElem hi]
  · have hlen : i < metric.CPUInfo.length := by
      rcases hinv with h | h
      · simp [h] at hz
      · omega
    rw [List.getElem?_eq_getElem hlen]
    simp [hz, List.getD_eq_getElem?_getD, List.getElem?_eq_getElem hi,
      List.getElem?_eq_getElem hlen]

theorem fetchCores_ok (m : Monitor) (metric : CPUMetrics)
    (hinv : metric.CPUInfo = [] ∨ metric.list.length ≤ metric.CPUInfo.length) :
    m.FetchCores (.ok metric) =
      ({ lastSample := metric },
       .ok ((List.range metric.list.length).map (coreOk m.lastSample metric))) := by
  have h := mapM_option_eq_some (coreAt m.lastSample metric) (coreOk m.lastSample metric) _
    (fun i hi => coreAt_eq_some _ _ _ (List.mem_range.mp hi) hinv)
  simp only [Monitor.FetchCores]
  rw [h]

/-! ### Claim theorems -/

/-- Concrete input for C1: current summed ticks strictly below previous. -/
def staleMetrics : Metrics :=
  { previousSample := { User := some 10 }, currentSample := { User := some 5 },
    count := 1, isTotals := true }

/-- C1 (code_bug evidence): with current totals (5) strictly below previous
totals (10), `Format` does NOT fail: the `uint64` window delta wraps around
to `2 ^ 64 - 5`, so the `timeDelta <= 0` guard only fires on exact equality,
and output is emitted. The claim (and the code's own error message
"previous sample is newer than current sample") require a failure here. -/
theorem c1_stale_guard_not_triggered_by_decreasing_totals :
    staleMetrics.currentSample.Total < staleMetrics.previousSample.Total ∧
    u64sub staleMetrics.currentSample.Total staleMetrics.previousSample.Total =
      2 ^ 64 - 5 ∧
    (staleMetrics.Format
      { Ticks := false, Percentages := false, NormalizedPercentages := false }).isSome
      = true := by
  refine ⟨by decide, by decide, by decide⟩

/-- C2: whenever both percentage flags are enabled and the window delta is
positive (samples below `2 ^ 63` ticks, so `uint64`/`int64` arithmetic is
exact), each category present in the current sample is emitted with
`pct = round(delta_c / timeDelta * normalizationCount)` and
`norm.pct = round(delta_c / timeDelta * 1)`, with the signed delta taking
an absent previous counter as `0` and no clamping applied. -/
theorem c2_per_category_percentages (metric : Metrics) (opts : MetricOpts)
    (c : Category)
    (hsp : metric.previousSample.Small) (hsc : metric.currentSample.Small)
    (hd : metric.previousSample.Total < metric.currentSample.Total)
    (hpresent : (c.get metric.currentSample).isSome = true)
    (hp : opts.Percentages = true) (hn : opts.NormalizedPercentages = true) :
    ∃ out, metric.Format opts = some out ∧
      mget [c.goName, "pct"] out =
        some (.num (pctSpec (c.get metric.previousSample) (c.get metric.currentSample)
          (metric.currentSample.Total - metric.previousSample.Total)
          (if metric.isTotals then metric.count else 1))) ∧
      mget [c.goName, "norm", "pct"] out =
        some (.num (pctSpec (c.get metric.previousSample) (c.get metric.currentSample)
          (metric.currentSample.Total - metric.previousSample.Total) 1)) := by
  have hb1 := small_field hsp c
  have hb2 := small_field hsc c
  have e : ∀ n, cpuMetricTimeDelta (c.get metric.previousSample) (c.get metric.currentSample)
      (metric.currentSample.Total - metric.previousSample.Total) n =
      pctSpec (c.get metric.previousSample) (c.get metric.currentSample)
      (metric.currentSample.Total - metric.previousSample.Total) n :=
    fun n => cpuMetricTimeDelta_eq_pctSpec _ _ _ _ (by omega) (by omega)
  refine ⟨_, format_eq_body opts hd, ?_, ?_⟩ <;>
  · cases c <;>
    · simp only [Category.get, Category.goName] at hpresent e ⊢
      simp [formatBody, reportOpt, fillMetric, mget_nil, mget_append, mget_ite,
        mget_cons, hp, hn, hpresent, e]

/-- C3: under a positive window delta (exact-arithmetic regime), the
Percentages flag emits `total.pct = round(normalizationCount - idlePortion)`
with `idlePortion = pct(idle) + pct(iowait)` (iowait contributing zero when
absent from the current sample), and the NormalizedPercentages flag emits
`total.norm.pct` as the same computation with `normalizationCount = 1`. -/
theorem c3_total_percentages (metric : Metrics) (opts : MetricOpts)
    (hsp : metric.previousSample.Small) (hsc : metric.currentSample.Small)
    (hd : metric.previousSample.Total < metric.currentSample.Total) :
    ∃ out, metric.Format opts = some out ∧
      (opts.Percentages = true →
        mget ["total", "pct"] out =
          some (.num (totalPctSpec metric.previousSample metric.currentSample
            (metric.currentSample.Total - metric.previousSample.Total)
            (if metric.isTotals then metric.count else 1)))) ∧
      (opts.NormalizedPercentages = true →
        mget ["total", "norm", "pct"] out =
          some (.num (totalPctSpec metric.previousSample metric.currentSample
            (metric.currentSample.Total - metric.previousSample.Total) 1))) := by
  have e : ∀ n, createTotal metric.previousSample metric.currentSample
      (metric.currentSample.Total - metric.previousSample.Total) n =
      totalPctSpec metric.previousSample metric.currentSample
      (metric.currentSample.Total - metric.previousSample.Total) n :=
    fun n => createTotal_eq_totalPctSpec _ _ _ _
      (small_field hsp .idle) (small_field hsc .idle)
      (small_field hsp .iowait) (small_field hsc .iowait)
  refine ⟨_, format_eq_body opts hd, fun hp => ?_, fun hn => ?_⟩
  · simp [formatBody, reportOpt, fillMetric, mget_nil, mget_append, mget_ite,
      mget_cons, hp, e]
  · simp [formatBody, reportOpt, fillMetric, mget_nil, mget_append, mget_ite,
      mget_cons, hn, e]

/-- C4: a successful `Fetch` stores the collected snapshot as `lastSample`
and returns a `Metrics` with `previous = old totals`, `current = new totals`,
`count = length of the new per-core list`, `isTotals = true`. -/
theorem c4_fetch_success_state_and_result (m : Monitor) (metric : CPUMetrics) :
    m.Fetch (.ok metric) =
      ({ lastSample := metric },
       .ok { previousSample := m.lastSample.totals, currentSample := metric.totals,
             count := metric.list.length, cpuInfo := {}, isTotals := true }) := rfl

/-- C5: a successful `FetchCores` returns one `Metrics` per core of the new
snapshot, in index order, pairing `current = new perCore[i]` with
`previous = old perCore[i]` when the stored snapshot has more than `i`
cores and with the all-absent sample otherwise; `lastSample` becomes the
new snapshot. -/
theorem c5_fetchCores_pairs_cores (m : Monitor) (metric : CPUMetrics)
    (hinv : metric.CPUInfo = [] ∨ metric.list.length ≤ metric.CPUInfo.length) :
    ∃ l, m.FetchCores (.ok metric) = ({ lastSample := metric }, .ok l) ∧
      l.length = metric.list.length ∧
      ∀ i, i < metric.list.length →
        (l.getD i {}).currentSample = metric.list.getD i {} ∧
        (l.getD i {}).previousSample =
          (if m.lastSample.list.length > i then m.lastSample.list.getD i {} else {}) ∧
        (l.getD i {}).isTotals = false := by
  refine ⟨_, fetchCores_ok m metric hinv, by simp, ?_⟩
  intro i hi
  have hg : ((List.range metric.list.length).map (coreOk m.lastSample metric)).getD i {} =
      coreOk m.lastSample metric i := by
    rw [List.getD_eq_getElem?_getD, List.getElem?_map, List.getElem?_range hi]
    rfl
  rw [hg]
  exact ⟨rfl, rfl, rfl⟩

/-- C6: when the collector fails, `Fetch` and `FetchCores` return an error
wrapping the underlying cause and leave `lastSample` untouched. -/
theorem c6_collector_failure_leaves_state_unchanged (m : Monitor) (e : String) :
    m.Fetch (.error e) = (m, .err ("error fetching CPU metrics: " ++ e)) ∧
    m.FetchCores (.error e) = (m, .err ("error fetching CPU metrics: " ++ e)) :=
  ⟨rfl, rfl⟩

/-- C8: a category whose counter is absent from the current sample produces
no key at all under its name in the output, for every configuration. -/
theorem c8_absent_category_omitted (metric : Metrics) (opts : MetricOpts)
    (c : Category) (rest : List String)
    (habsent : c.get metric.currentSample = none) :
    mget (c.goName :: rest) ((metric.Format opts).getD []) = none := by
  simp only [Metrics.Format]
  split
  · simp [mget]
  · cases c <;>
    · simp only [Category.get] at habsent
      simp [formatBody, reportOpt, fillMetric, mget_nil, mget_append, mget_ite,
        mget_cons, habsent, Category.goName]

/-- C9: the five CPU-info fields are emitted, verbatim, exactly when the
view is per-core (`isTotals = false`) and the attached `CPUInfo` differs
from the zero value; a totals view or a zero-valued `CPUInfo` emits none
of them. -/
theorem c9_core_info_emission (metric : Metrics) (opts : MetricOpts) (out : Out)
    (hfmt : metric.Format opts = some out) :
    ((metric.isTotals = false ∧ metric.cpuInfo ≠ ({} : CPUInfo)) →
      mget ["model_number"] out = some (.str metric.cpuInfo.ModelNumber) ∧
      mget ["model_name"] out = some (.str metric.cpuInfo.ModelName) ∧
      mget ["mhz"] out = some (.num metric.cpuInfo.Mhz) ∧
      mget ["core_id"] out = some (.int metric.cpuInfo.CoreID) ∧
      mget ["physical_id"] out = some (.int metric.cpuInfo.PhysicalID)) ∧
    ((metric.isTotals = true ∨ metric.cpuInfo = ({} : CPUInfo)) →
      mget ["model_number"] out = none ∧ mget ["model_name"] out = none ∧
      mget ["mhz"] out = none ∧ mget ["core_id"] out = none ∧
      mget ["physical_id"] out = none) := by
  simp only [Metrics.Format] at hfmt
  split at hfmt
  · exact absurd hfmt (by simp)
  · replace hfmt := Option.some.inj hfmt
    subst hfmt
    refine ⟨fun h => ?_, fun h => ?_⟩
    · obtain ⟨ht, hi⟩ := h
      simp [formatBody, reportOpt, fillMetric, mget_nil, mget_append, mget_ite,
        mget_cons, ht, hi]
    · rcases h with ht | hi
      · simp [formatBody, reportOpt, fillMetric, mget_nil, mget_append, mget_ite,
          mget_cons, ht]
      · simp [formatBody, reportOpt, fillMetric, mget_nil, mget_append, mget_ite,
          mget_cons, hi]

/-- C10: under the snapshot invariant (`CPUInfo` empty or at least as long
as the per-core list) `FetchCores` never faults, and when `CPUInfo` is
empty no returned `Metrics` carries an info record. -/
theorem c10_fetchCores_info_in_bounds (m : Monitor) (metric : CPUMetrics)
    (hinv : metric.CPUInfo = [] ∨ metric.list.length ≤ metric.CPUInfo.length) :
    ∃ l, m.FetchCores (.ok metric) = ({ lastSample := metric }, .ok l) ∧
      (metric.CPUInfo = [] → ∀ mm ∈ l, mm.cpuInfo = ({} : CPUInfo)) := by
  refine ⟨_, fetchCores_ok m metric hinv, ?_⟩
  intro hnil mm hmm
  simp only [List.mem_map] at hmm
  obtain ⟨i, _, rfl⟩ := hmm
  simp [coreOk, hnil]

/-! ### C7: double rounding in the aggregate total -/

/-- Evaluation rule for `Round` at a concrete argument. -/
theorem Round_eq_of_floor (x : ℚ) (z : ℤ)
    (h1 : (z : ℚ) ≤ x * 100 + 1 / 2) (h2 : x * 100 + 1 / 2 < z + 1) :
    Round x = (z : ℚ) / 100 := by
  unfold Round
  rw [round_eq, Int.floor_eq_iff.mpr ⟨h1, h2⟩]

/-- C7 counterexample input: one elapsed tick in each of user, idle, iowait. -/
def doubleRoundPrev : CPU := { User := some 0, Idle := some 0, Wait := some 0 }

/-- C7 counterexample input, current side. -/
def doubleRoundCur : CPU := { User := some 1, Idle := some 1, Wait := some 1 }

/-- C7 counterexample `Metrics` (aggregate view, one core, window delta 3). -/
def doubleRoundMetrics : Metrics :=
  { previousSample := doubleRoundPrev, currentSample := doubleRoundCur,
    count := 1, isTotals := true }

theorem cpuD_one_third : cpuMetricTimeDelta (some 0) (some 1) 3 1 = 33 / 100 := by
  unfold cpuMetricTimeDelta
  rw [show toInt64 (u64sub ((some 1).getD 0) ((some 0).getD 0)) = 1 from by decide]
  rw [Round_eq_of_floor _ 33 (by push_cast; norm_num) (by push_cast; norm_num)]
  norm_num

theorem createTotal_doubleRound : createTotal doubleRoundPrev doubleRoundCur 3 1 = 17 / 50 := by
  unfold createTotal doubleRoundPrev doubleRoundCur
  simp only [Option.isSome_some, if_true]
  rw [cpuD_one_third]
  rw [Round_eq_of_floor _ 34 (by push_cast; norm_num) (by push_cast; norm_num)]
  norm_num

theorem singleRound_doubleRound :
    totalPctSingleRound doubleRoundPrev doubleRoundCur 3 1 = 33 / 100 := by
  unfold totalPctSingleRound doubleRoundPrev doubleRoundCur
  simp only [Option.isSome_some, if_true, Option.getD_some]
  rw [Round_eq_of_floor _ 33 (by push_cast; norm_num) (by push_cast; norm_num)]
  norm_num

/-- C7 counterexample: at window delta 3 with idle and iowait each advancing
by one tick, `Format` emits `total.pct = 0.34` (computed from the
already-rounded `0.33 + 0.33`), while the single-rounding formula of the
claim, `round(n - (idleRatio + iowaitRatio))`, yields `0.33`. -/
theorem c7_total_double_rounding_counterexample :
    (∃ out, doubleRoundMetrics.Format
        { Ticks := false, Percentages := true, NormalizedPercentages := false } = some out ∧
      mget ["total", "pct"] out = some (.num (17 / 50))) ∧
    totalPctSingleRound doubleRoundPrev doubleRoundCur 3 1 = 33 / 100 ∧
    (17 / 50 : ℚ) ≠ 33 / 100 := by
  refine ⟨⟨_, format_eq_body _ (by decide), ?_⟩, singleRound_doubleRound, by norm_num⟩
  have htd : doubleRoundMetrics.currentSample.Total - doubleRoundMetrics.previousSample.Total
      = 3 := by decide
  rw [htd]
  simp [formatBody, reportOpt, fillMetric, mget_nil, mget_append, mget_ite, mget_cons,
    doubleRoundMetrics, createTotal_doubleRound]

/-- C7 (amended): the aggregate total percentage is computed from the
already-rounded idle and iowait percentages (`pctSpec`, each rounded at
emission of the corresponding per-category value) and is then rounded
again — not from unrounded ratios. -/
theorem c7_amended_total_from_rounded_ratios (prev cur : CPU) (td n : ℕ)
    (hsp : prev.Small) (hsc : cur.Small) :
    createTotal prev cur td n =
      Round ((n : ℚ) - (pctSpec prev.Idle cur.Idle td n +
        (if cur.Wait.isSome then pctSpec prev.Wait cur.Wait td n else 0))) :=
  createTotal_eq_totalPctSpec prev cur td n (small_field hsp .idle) (small_field hsc .idle)
    (small_field hsp .iowait) (small_field hsc .iowait)

theorem c7_amended_witness :
    doubleRoundPrev.Small ∧ doubleRoundCur.Small ∧
    createTotal doubleRoundPrev doubleRoundCur 3 1 =
      Round (((1 : ℕ) : ℚ) - (pctSpec doubleRoundPrev.Idle doubleRoundCur.Idle 3 1 +
        (if doubleRoundCur.Wait.isSome then pctSpec doubleRoundPrev.Wait doubleRoundCur.Wait 3 1
         else 0))) :=
  ⟨by decide, by decide,
   c7_amended_total_from_rounded_ratios doubleRoundPrev doubleRoundCur 3 1 (by decide) (by decide)⟩

/-! ### Witnesses for the hypothesis-carrying claim theorems -/

/-- The spec section 8 worked example: previous totals
`{user: 100, system: 50, idle: 800}`, current totals
`{user: 110, system: 55, idle: 830}`, one core, aggregate view. -/
def exampleMetrics : Metrics :=
  { previousSample := { User := some 100, Sys := some 50, Idle := some 800 },
    currentSample := { User := some 110, Sys := some 55, Idle := some 830 },
    count := 1, isTotals := true }

theorem c2_witness :
    exampleMetrics.previousSample.Total < exampleMetrics.currentSample.Total ∧
    (∃ out, exampleMetrics.Format
        { Ticks := false, Percentages := true, NormalizedPercentages := true } = some out ∧
      mget ["user", "pct"] out =
        some (.num (pctSpec exampleMetrics.previousSample.User exampleMetrics.currentSample.User
          (exampleMetrics.currentSample.Total - exampleMetrics.previousSample.Total)
          (if exampleMetrics.isTotals then exampleMetrics.count else 1))) ∧
      mget ["user", "norm", "pct"] out =
        some (.num (pctSpec exampleMetrics.previousSample.User exampleMetrics.currentSample.User
          (exampleMetrics.currentSample.Total - exampleMetrics.previousSample.Total) 1))) :=
  ⟨by decide, c2_per_category_percentages exampleMetrics _ Category.user (by decide) (by decide)
    (by decide) (by decide) rfl rfl⟩

theorem c3_witness :
    exampleMetrics.previousSample.Total < exampleMetrics.currentSample.Total ∧
    (∃ out, exampleMetrics.Format
        { Ticks := false, Percentages := true, NormalizedPercentages := true } = some out ∧
      (true = true →
        mget ["total", "pct"] out =
          some (.num (totalPctSpec exampleMetrics.previousSample exampleMetrics.currentSample
            (exampleMetrics.currentSample.Total - exampleMetrics.previousSample.Total)
            (if exampleMetrics.isTotals then exampleMetrics.count else 1)))) ∧
      (true = true →
        mget ["total", "norm", "pct"] out =
          some (.num (totalPctSpec exampleMetrics.previousSample exampleMetrics.currentSample
            (exampleMetrics.currentSample.Total - exampleMetrics.previousSample.Total) 1)))) :=
  ⟨by decide, c3_total_percentages exampleMetrics _ (by decide) (by decide) (by decide)⟩

theorem c8_witness :
    Category.iowait.get exampleMetrics.currentSample = none ∧
    mget ["iowait", "pct"]
      ((exampleMetrics.Format
        { Ticks := true, Percentages := true, NormalizedPercentages := true }).getD []) = none :=
  ⟨rfl, c8_absent_category_omitted exampleMetrics _ Category.iowait ["pct"] rfl⟩

/-- A per-core view with a non-zero attached `CPUInfo`. -/
def coreViewMetrics : Metrics :=
  { previousSample := { User := some 100, Idle := some 800 },
    currentSample := { User := some 150, Idle := some 830 },
    count := 0, isTotals := false,
    cpuInfo := { ModelName := "TestCPU", ModelNumber := "42", Mhz := 2500,
                 PhysicalID := 1, CoreID := 3 } }

theorem c9_witness :
    (coreViewMetrics.isTotals = false ∧ coreViewMetrics.cpuInfo ≠ ({} : CPUInfo)) ∧
    (mget ["model_number"] (formatBody coreViewMetrics
        { Ticks := true, Percentages := true, NormalizedPercentages := true }
        (coreViewMetrics.currentSample.Total - coreViewMetrics.previousSample.Total)) =
      some (.str "42") ∧
     mget ["model_name"] (formatBody coreViewMetrics
        { Ticks := true, Percentages := true, NormalizedPercentages := true }
        (coreViewMetrics.currentSample.Total - coreViewMetrics.previousSample.Total)) =
      some (.str "TestCPU") ∧
     mget ["mhz"] (formatBody coreViewMetrics
        { Ticks := true, Percentages := true, NormalizedPercentages := true }
        (coreViewMetrics.currentSample.Total - coreViewMetrics.previousSample.Total)) =
      some (.num 2500) ∧
     mget ["core_id"] (formatBody coreViewMetrics
        { Ticks := true, Percentages := true, NormalizedPercentages := true }
        (coreViewMetrics.currentSample.Total - coreViewMetrics.previousSample.Total)) =
      some (.int 3) ∧
     mget ["physical_id"] (formatBody coreViewMetrics
        { Ticks := true, Percentages := true, NormalizedPercentages := true }
        (coreViewMetrics.currentSample.Total - coreViewMetrics.previousSample.Total)) =
      some (.int 1)) :=
  ⟨⟨rfl, by simp [coreViewMetrics]⟩,
   (c9_core_info_emission coreViewMetrics
      { Ticks := true, Percentages := true, NormalizedPercentages := true } _
      (format_eq_body _ (by decide))).1 ⟨rfl, by simp [coreViewMetrics]⟩⟩

/-- Stored snapshot with one core, used against a two-core new snapshot:
the core count grew between samples. -/
def growLast : CPUMetrics := { totals := { User := some 10 }, list := [{ User := some 10 }] }

/-- New snapshot with two cores and no per-core info. -/
def growNew : CPUMetrics :=
  { totals := { User := some 30 }, list := [{ User := some 12 }, { User := some 18 }] }

theorem c5_witness :
    (growNew.CPUInfo = [] ∨ growNew.list.length ≤ growNew.CPUInfo.length) ∧
    (∃ l, Monitor.FetchCores { lastSample := growLast } (.ok growNew) =
        ({ lastSample := growNew }, .ok l) ∧
      l.length = growNew.list.length ∧
      ∀ i, i < growNew.list.length →
        (l.getD i {}).currentSample = growNew.list.getD i {} ∧
        (l.getD i {}).previousSample =
          (if ({ lastSample := growLast } : Monitor).lastSample.list.length > i
           then ({ lastSample := growLast } : Monitor).lastSample.list.getD i {} else {}) ∧
        (l.getD i {}).isTotals = false) :=
  ⟨Or.inl rfl, c5_fetchCores_pairs_cores { lastSample := growLast } growNew (Or.inl rfl)⟩

theorem c10_witness :
    growNew.CPUInfo = [] ∧
    (∃ l, Monitor.FetchCores { lastSample := growLast } (.ok growNew) =
        ({ lastSample := growNew }, .ok l) ∧
      (growNew.CPUInfo = [] → ∀ mm ∈ l, mm.cpuInfo = ({} : CPUInfo))) :=
  ⟨rfl, c10_fetchCores_info_in_bounds { lastSample := growLast } growNew (Or.inl rfl)⟩

end Cpu
